import Mathlib

/-!
Verification of the Big Arrows argument-graph store
(`src/store/useArrowsStore.ts`, types from `src/types`, seed from
`src/data/exampleData.ts`).

The store is a zustand/immer store over plain data.  We embed it shallowly:
records become structures, `Record<string, Frame>` becomes an association
list that models JavaScript object key semantics (assignment replaces the
value of an existing key in place, otherwise appends), `Partial<T>` becomes
a structure of `Option` fields, the JS spread `{ ...defaults, ...patch }`
becomes an explicit merge, and `nanoid()` becomes an explicit `String`
argument supplied to each creating operation (its freshness, where a claim
needs it, is an explicit hypothesis).  JS truthiness of the optional string
`subFrameId` (`undefined` and `""` are falsy) is modelled by `strOptTruthy`.
-/

namespace BigArrows

/-- 2D coordinate, `{ x, y }` in the source. -/
structure Pos where
  x : Int
  y : Int
  deriving DecidableEq, Repr

/-- `Node` from `src/types`: id, type, content, position, optional data. -/
structure Node where
  id : String
  type : String
  content : String
  position : Pos
  data : Option (List (String × String))
  deriving DecidableEq, Repr

/-- `Arrow` from `src/types`: id, source and target node ids, type,
`hasSubFrame` flag and optional `subFrameId`. -/
structure Arrow where
  id : String
  source : String
  target : String
  type : String
  hasSubFrame : Bool
  subFrameId : Option String
  deriving DecidableEq, Repr

/-- `Frame` from `src/types`: one graph with nodes and arrows, an optional
back-reference `parentArrowId` and a nesting `level`. -/
structure Frame where
  id : String
  title : String
  description : Option String
  nodes : List Node
  arrows : List Arrow
  parentArrowId : Option String
  level : Int
  deriving DecidableEq, Repr

/-- `Partial<Node>`: a field that is `none` is absent from the patch. -/
structure NodePatch where
  id : Option String := none
  type : Option String := none
  content : Option String := none
  position : Option Pos := none
  data : Option (List (String × String)) := none
  deriving DecidableEq, Repr

/-- `Partial<Arrow>`. -/
structure ArrowPatch where
  id : Option String := none
  source : Option String := none
  target : Option String := none
  type : Option String := none
  hasSubFrame : Option Bool := none
  subFrameId : Option String := none
  deriving DecidableEq, Repr

/-- `Partial<Frame>`. -/
structure FramePatch where
  id : Option String := none
  title : Option String := none
  description : Option String := none
  nodes : Option (List Node) := none
  arrows : Option (List Arrow) := none
  parentArrowId : Option String := none
  level : Option Int := none
  deriving DecidableEq, Repr

/-- Shallow merge `{ ...n, ...p }` used by `updateNode`. -/
def mergeNode (n : Node) (p : NodePatch) : Node :=
  { id := p.id.getD n.id
    type := p.type.getD n.type
    content := p.content.getD n.content
    position := p.position.getD n.position
    data := match p.data with | some d => some d | none => n.data }

/-- Shallow merge `{ ...a, ...p }` used by `updateArrow`. -/
def mergeArrow (a : Arrow) (p : ArrowPatch) : Arrow :=
  { id := p.id.getD a.id
    source := p.source.getD a.source
    target := p.target.getD a.target
    type := p.type.getD a.type
    hasSubFrame := p.hasSubFrame.getD a.hasSubFrame
    subFrameId := match p.subFrameId with | some v => some v | none => a.subFrameId }

/-- The `frames` record: insertion-ordered key/value pairs, as a JS object. -/
abbrev Frames := List (String × Frame)

/-- `frames[k]` as a read. -/
def lookupFrame (fs : Frames) (k : String) : Option Frame :=
  (fs.find? (fun e => e.1 == k)).map (fun e => e.2)

/-- Truthiness test `frames[k]` used by the source's guards. -/
def hasFrame (fs : Frames) (k : String) : Bool :=
  (lookupFrame fs k).isSome

/-- In-place mutation of the value at key `k` (no-op when `k` is absent),
modelling immer drafts like `state.frames[frameId].nodes.push(...)`. -/
def updateFrame (fs : Frames) (k : String) (f : Frame → Frame) : Frames :=
  fs.map (fun e => if e.1 == k then (e.1, f e.2) else e)

/-- Assignment `state.frames[k] = v`: replace in place when the key exists,
append otherwise (JS object key order). -/
def insertFrame (fs : Frames) (k : String) (v : Frame) : Frames :=
  if hasFrame fs k then fs.map (fun e => if e.1 == k then (k, v) else e)
  else fs ++ [(k, v)]

/-- `findIndex` followed by assignment at that index: rewrite the first
element satisfying `q`, leave the list unchanged when none does. -/
def updateFirst (q : α → Bool) (f : α → α) : List α → List α
  | [] => []
  | x :: xs => if q x then f x :: xs else x :: updateFirst q f xs

/-- JS truthiness of `subFrameId`: `undefined` and the empty string are falsy. -/
def strOptTruthy : Option String → Bool
  | none => false
  | some s => !(s == "")

/-- The store's state: `frames`, `currentFrameId`, `expandedArrowId`,
`breadcrumbs` (from the `ArrowsState` interface). -/
structure StoreState where
  frames : Frames
  currentFrameId : String
  expandedArrowId : Option String
  breadcrumbs : List String
  deriving DecidableEq, Repr

/-- `expandArrow` from the store: look the arrow up in the current frame and
set `expandedArrowId` when `arrow?.hasSubFrame && arrow.subFrameId` holds.
The source dereferences `frames[currentFrameId]` without a guard and would
throw if `currentFrameId` were not a key; that branch, unreachable from the
seed state, is modelled as leaving the state unchanged. -/
def expandArrow (arrowId : String) (s : StoreState) : StoreState :=
  match lookupFrame s.frames s.currentFrameId with
  | none => s
  | some currentFrame =>
    match currentFrame.arrows.find? (fun a => a.id == arrowId) with
    | some arrow =>
      if arrow.hasSubFrame && strOptTruthy arrow.subFrameId then
        { s with expandedArrowId := some arrowId }
      else s
    | none => s

/-- `collapseArrow`: unconditionally clear `expandedArrowId`. -/
def collapseArrow (s : StoreState) : StoreState :=
  { s with expandedArrowId := none }

/-- `navigateToFrame`: guarded by `frames[frameId]`; sets the current frame,
clears the expansion, and either appends to the breadcrumbs or truncates
them to `slice(0, indexOf(frameId) + 1)`. -/
def navigateToFrame (frameId : String) (s : StoreState) : StoreState :=
  if hasFrame s.frames frameId then
    { s with
      currentFrameId := frameId
      expandedArrowId := none
      breadcrumbs :=
        if s.breadcrumbs.contains frameId then
          s.breadcrumbs.take (s.breadcrumbs.indexOf frameId + 1)
        else
          s.breadcrumbs ++ [frameId] }
  else s

/-- `navigateBack`: when more than one breadcrumb, go to the second-to-last
entry and pop the last. -/
def navigateBack (s : StoreState) : StoreState :=
  if 1 < s.breadcrumbs.length then
    { s with
      currentFrameId := s.breadcrumbs.getD (s.breadcrumbs.length - 2) ""
      expandedArrowId := none
      breadcrumbs := s.breadcrumbs.dropLast }
  else s

/-- `createNode`: build `{ id: newNodeId, type: 'proposition', content: '',
position: {x:100,y:100}, ...node }`, push it onto the frame's nodes when the
frame exists, and return `newNodeId` regardless.  `newNodeId` stands for the
`nanoid()` call. -/
def createNode (frameId : String) (node : NodePatch) (newNodeId : String)
    (s : StoreState) : StoreState × String :=
  let newNode : Node :=
    { id := node.id.getD newNodeId
      type := node.type.getD "proposition"
      content := node.content.getD ""
      position := node.position.getD { x := 100, y := 100 }
      data := node.data }
  (if hasFrame s.frames frameId then
    { s with frames := (updateFrame s.frames frameId
        (fun fr => { fr with nodes := fr.nodes ++ [newNode] })) }
  else s, newNodeId)

/-- `updateNode`: shallow-merge `updates` into the first node with the given
id, when frame and node exist. -/
def updateNode (frameId nodeId : String) (updates : NodePatch)
    (s : StoreState) : StoreState :=
  { s with frames := (updateFrame s.frames frameId
      (fun fr => { fr with
        nodes := updateFirst (fun n => n.id == nodeId)
          (fun n => mergeNode n updates) fr.nodes })) }

/-- `deleteNode`: drop the node and every arrow whose source or target is
`nodeId` from the one frame. -/
def deleteNode (frameId nodeId : String) (s : StoreState) : StoreState :=
  { s with frames := (updateFrame s.frames frameId
      (fun fr => { fr with
        nodes := fr.nodes.filter (fun n => !(n.id == nodeId))
        arrows := fr.arrows.filter
          (fun a => !(a.source == nodeId) && !(a.target == nodeId)) })) }

/-- `createArrow`: build `{ id: newArrowId, source: '', target: '',
type: 'logical', hasSubFrame: false, ...arrow }` and push it when the frame
exists; return `newArrowId` regardless. -/
def createArrow (frameId : String) (arrow : ArrowPatch) (newArrowId : String)
    (s : StoreState) : StoreState × String :=
  let newArrow : Arrow :=
    { id := arrow.id.getD newArrowId
      source := arrow.source.getD ""
      target := arrow.target.getD ""
      type := arrow.type.getD "logical"
      hasSubFrame := arrow.hasSubFrame.getD false
      subFrameId := arrow.subFrameId }
  (if hasFrame s.frames frameId then
    { s with frames := (updateFrame s.frames frameId
        (fun fr => { fr with arrows := fr.arrows ++ [newArrow] })) }
  else s, newArrowId)

/-- `updateArrow`: shallow-merge into the first arrow with the given id. -/
def updateArrow (frameId arrowId : String) (updates : ArrowPatch)
    (s : StoreState) : StoreState :=
  { s with frames := (updateFrame s.frames frameId
      (fun fr => { fr with
        arrows := updateFirst (fun a => a.id == arrowId)
          (fun a => mergeArrow a updates) fr.arrows })) }

/-- `deleteArrow`: drop the arrow; any sub-frame it owned is kept. -/
def deleteArrow (frameId arrowId : String) (s : StoreState) : StoreState :=
  { s with frames := (updateFrame s.frames frameId
      (fun fr => { fr with arrows := fr.arrows.filter (fun a => !(a.id == arrowId)) })) }

/-- `createFrame`: build `{ id: newFrameId, title: 'New Frame',
description: '', nodes: [], arrows: [], level: 0, ...frame }` and assign it
at key `newFrameId`. -/
def createFrame (frame : FramePatch) (newFrameId : String)
    (s : StoreState) : StoreState × String :=
  let newFrame : Frame :=
    { id := frame.id.getD newFrameId
      title := frame.title.getD "New Frame"
      description := some (frame.description.getD "")
      nodes := frame.nodes.getD []
      arrows := frame.arrows.getD []
      parentArrowId := frame.parentArrowId
      level := frame.level.getD 0 }
  ({ s with frames := insertFrame s.frames newFrameId newFrame }, newFrameId)

/-- `createSubFrame`: look the arrow up in the current frame (`return ''`
when absent); build `{ id: newFrameId, title: 'New Sub-Frame',
description: '', nodes: [], arrows: [], parentArrowId: arrowId,
level: currentFrame.level + 1, ...frame }`; assign it at key `newFrameId`;
then, when `currentFrameId` is still a key, set `hasSubFrame = true` and
`subFrameId = newFrameId` on the first arrow with the given id.  As in
`expandArrow`, the unguarded read of the current frame is modelled as a
no-op on the unreachable missing-key branch. -/
def createSubFrame (arrowId : String) (frame : FramePatch) (newFrameId : String)
    (s : StoreState) : StoreState × String :=
  match lookupFrame s.frames s.currentFrameId with
  | none => (s, "")
  | some currentFrame =>
    match currentFrame.arrows.find? (fun a => a.id == arrowId) with
    | none => (s, "")
    | some _ =>
      let newFrame : Frame :=
        { id := frame.id.getD newFrameId
          title := frame.title.getD "New Sub-Frame"
          description := some (frame.description.getD "")
          nodes := frame.nodes.getD []
          arrows := frame.arrows.getD []
          parentArrowId := some (frame.parentArrowId.getD arrowId)
          level := frame.level.getD (currentFrame.level + 1) }
      let frames1 := insertFrame s.frames newFrameId newFrame
      let frames2 :=
        if hasFrame frames1 s.currentFrameId then
          updateFrame frames1 s.currentFrameId
            (fun fr => { fr with
              arrows := updateFirst (fun a => a.id == arrowId)
                (fun a => { a with hasSubFrame := true, subFrameId := some newFrameId })
                fr.arrows })
        else frames1
      ({ s with frames := frames2 }, newFrameId)

/-- One store command; creating commands carry the id their `nanoid()` call
produced. -/
inductive Op where
  | expandArrow (arrowId : String)
  | collapseArrow
  | navigateToFrame (frameId : String)
  | navigateBack
  | createNode (frameId : String) (node : NodePatch) (newNodeId : String)
  | updateNode (frameId nodeId : String) (updates : NodePatch)
  | deleteNode (frameId nodeId : String)
  | createArrow (frameId : String) (arrow : ArrowPatch) (newArrowId : String)
  | updateArrow (frameId arrowId : String) (updates : ArrowPatch)
  | deleteArrow (frameId arrowId : String)
  | createFrame (frame : FramePatch) (newFrameId : String)
  | createSubFrame (arrowId : String) (frame : FramePatch) (newFrameId : String)
  deriving DecidableEq, Repr

/-- Effect of one command on the state (returned ids discarded). -/
def applyOp (op : Op) (s : StoreState) : StoreState :=
  match op with
  | .expandArrow arrowId => expandArrow arrowId s
  | .collapseArrow => collapseArrow s
  | .navigateToFrame frameId => navigateToFrame frameId s
  | .navigateBack => navigateBack s
  | .createNode frameId node newNodeId => (createNode frameId node newNodeId s).1
  | .updateNode frameId nodeId updates => updateNode frameId nodeId updates s
  | .deleteNode frameId nodeId => deleteNode frameId nodeId s
  | .createArrow frameId arrow newArrowId => (createArrow frameId arrow newArrowId s).1
  | .updateArrow frameId arrowId updates => updateArrow frameId arrowId updates s
  | .deleteArrow frameId arrowId => deleteArrow frameId arrowId s
  | .createFrame frame newFrameId => (createFrame frame newFrameId s).1
  | .createSubFrame arrowId frame newFrameId => (createSubFrame arrowId frame newFrameId s).1

/-- Run a sequence of commands. -/
def run (ops : List Op) (s : StoreState) : StoreState :=
  ops.foldl (fun t op => applyOp op t) s

/-- The `main` frame of `exampleData`. -/
def mainFrame : Frame :=
  { id := "main"
    title := "Climate Change Policy Argument"
    description := some "Top-level argument structure"
    parentArrowId := none
    level := 0
    nodes :=
      [ { id := "scientific-evidence", type := "proposition",
          content := "Scientific Evidence", position := { x := 250, y := 100 },
          data := some [("description", "Established Knowledge")] },
        { id := "carbon-tax", type := "proposition",
          content := "Carbon Tax Policy", position := { x := 650, y := 100 },
          data := some [("description", "Proposed Solution")] },
        { id := "economic-analysis", type := "proposition",
          content := "Economic Analysis", position := { x := 250, y := 300 },
          data := some [("description", "Impact Assessment")] },
        { id := "implementation-plan", type := "proposition",
          content := "Implementation Plan", position := { x := 650, y := 300 },
          data := some [("description", "Strategic Approach")] } ]
    arrows :=
      [ { id := "arrow-scientific-to-carbon", source := "scientific-evidence",
          target := "carbon-tax", type := "logical",
          hasSubFrame := true, subFrameId := some "scientific-carbon" },
        { id := "arrow-scientific-to-economic", source := "scientific-evidence",
          target := "economic-analysis", type := "supportive",
          hasSubFrame := false, subFrameId := none },
        { id := "arrow-economic-to-implementation", source := "economic-analysis",
          target := "implementation-plan", type := "causal",
          hasSubFrame := false, subFrameId := none },
        { id := "arrow-carbon-to-implementation", source := "carbon-tax",
          target := "implementation-plan", type := "logical",
          hasSubFrame := false, subFrameId := none } ] }

/-- The `scientific-carbon` sub-frame of `exampleData`. -/
def scientificCarbonFrame : Frame :=
  { id := "scientific-carbon"
    title := "Scientific Evidence → Carbon Tax"
    description := some "Arguments linking scientific evidence to carbon tax policy"
    parentArrowId := some "arrow-scientific-to-carbon"
    level := 1
    nodes :=
      [ { id := "human-co2", type := "proposition",
          content := "Human Activity → CO2 Increase",
          position := { x := 150, y := 100 }, data := some [] },
        { id := "co2-temp", type := "proposition",
          content := "CO2 Increase → Temperature Rise",
          position := { x := 400, y := 100 }, data := some [] },
        { id := "climate-models", type := "proposition",
          content := "Climate Models",
          position := { x := 150, y := 250 }, data := some [] },
        { id := "carbon-reduction", type := "proposition",
          content := "Need for Carbon Reduction",
          position := { x := 400, y := 250 }, data := some [] },
        { id := "carbon-tax-emissions", type := "proposition",
          content := "Carbon Tax → Emissions Reduction",
          position := { x := 275, y := 400 }, data := some [] } ]
    arrows :=
      [ { id := "arrow-human-to-co2", source := "human-co2",
          target := "co2-temp", type := "causal",
          hasSubFrame := false, subFrameId := none },
        { id := "arrow-co2-to-reduction", source := "co2-temp",
          target := "carbon-reduction", type := "logical",
          hasSubFrame := false, subFrameId := none },
        { id := "arrow-models-to-reduction", source := "climate-models",
          target := "carbon-reduction", type := "supportive",
          hasSubFrame := true, subFrameId := some "climate-models-detail" },
        { id := "arrow-reduction-to-tax", source := "carbon-reduction",
          target := "carbon-tax-emissions", type := "logical",
          hasSubFrame := false, subFrameId := none } ] }

/-- The `climate-models-detail` sub-frame of `exampleData`. -/
def climateModelsDetailFrame : Frame :=
  { id := "climate-models-detail"
    title := "Climate Models"
    description := some "Details on climate modeling"
    parentArrowId := some "arrow-models-to-reduction"
    level := 2
    nodes :=
      [ { id := "physics", type := "axiom", content := "Atmospheric Physics",
          position := { x := 100, y := 100 }, data := some [] },
        { id := "data", type := "proposition", content := "Historical Data",
          position := { x := 300, y := 100 }, data := some [] },
        { id := "models", type := "proposition", content := "Simulation Models",
          position := { x := 200, y := 200 }, data := some [] } ]
    arrows :=
      [ { id := "arrow-physics-to-models", source := "physics",
          target := "models", type := "supportive",
          hasSubFrame := false, subFrameId := none },
        { id := "arrow-data-to-models", source := "data",
          target := "models", type := "supportive",
          hasSubFrame := false, subFrameId := none } ] }

/-- `exampleData.frames`. -/
def exampleFrames : Frames :=
  [ ("main", mainFrame),
    ("scientific-carbon", scientificCarbonFrame),
    ("climate-models-detail", climateModelsDetailFrame) ]

/-- The store's initial state: `exampleData.frames`, current frame `main`,
no expansion, breadcrumbs `['main']`. -/
def initialState : StoreState :=
  { frames := exampleFrames
    currentFrameId := "main"
    expandedArrowId := none
    breadcrumbs := ["main"] }

/-- A node with this id exists in the given frame. -/
def nodeExists (fr : Frame) (nid : String) : Bool :=
  fr.nodes.any (fun n => n.id == nid)

/-- Every arrow of the frame has both endpoints among the frame's nodes. -/
def frameRefOk (fr : Frame) : Bool :=
  fr.arrows.all (fun a => nodeExists fr a.source && nodeExists fr a.target)

/-- Referential integrity of the whole store. -/
def refIntegrity (s : StoreState) : Bool :=
  s.frames.all (fun e => frameRefOk e.2)

/-- A node with this id exists somewhere in the store. -/
def nodeInStore (s : StoreState) (nid : String) : Bool :=
  s.frames.any (fun e => nodeExists e.2 nid)

/-- An arrow with this id exists somewhere in the store. -/
def arrowInStore (s : StoreState) (aid : String) : Bool :=
  s.frames.any (fun e => e.2.arrows.any (fun a => a.id == aid))

/-- The navigation state resolves: the current frame and every breadcrumb
entry are keys of `frames`. -/
def navResolves (s : StoreState) : Bool :=
  hasFrame s.frames s.currentFrameId && s.breadcrumbs.all (fun b => hasFrame s.frames b)

/-- The navigation invariant: breadcrumbs are non-empty, and the current
frame and every breadcrumb entry are keys of `frames`. -/
def GoodState (s : StoreState) : Prop :=
  s.breadcrumbs ≠ []
  ∧ hasFrame s.frames s.currentFrameId = true
  ∧ ∀ b ∈ s.breadcrumbs, hasFrame s.frames b = true

/-- The operations that cannot introduce a dangling arrow endpoint:
everything except `createArrow` and `updateArrow` (no endpoint checks),
`updateNode` (can rename a node id away from under its arrows), and
`createFrame`/`createSubFrame` (caller-supplied frame contents). -/
def preservesEndpoints : Op → Bool
  | .expandArrow _ => true
  | .collapseArrow => true
  | .navigateToFrame _ => true
  | .navigateBack => true
  | .createNode _ _ _ => true
  | .deleteNode _ _ => true
  | .deleteArrow _ _ => true
  | _ => false

/-! Association-list lemmas for the `frames` record. -/

theorem lookupFrame_cons (e : String × Frame) (fs : Frames) (k : String) :
    lookupFrame (e :: fs) k = if e.1 == k then some e.2 else lookupFrame fs k := by
  cases h : e.1 == k <;> simp [lookupFrame, List.find?_cons, h]

theorem lookupFrame_append (fs gs : Frames) (k : String) :
    lookupFrame (fs ++ gs) k = (lookupFrame fs k).or (lookupFrame gs k) := by
  cases h : fs.find? (fun e => e.1 == k) <;>
    simp [lookupFrame, List.find?_append, h]

theorem updateFrame_cons (e : String × Frame) (fs : Frames) (k : String) (f : Frame → Frame) :
    updateFrame (e :: fs) k f =
      (if e.1 == k then (e.1, f e.2) else e) :: updateFrame fs k f := by
  simp [updateFrame]

theorem lookupFrame_updateFrame_self (fs : Frames) (k : String) (f : Frame → Frame) :
    lookupFrame (updateFrame fs k f) k = (lookupFrame fs k).map f := by
  induction fs with
  | nil => rfl
  | cons e fs ih =>
    by_cases h : e.1 = k
    · simp [updateFrame_cons, lookupFrame_cons, h]
    · simp [updateFrame_cons, lookupFrame_cons, h, ih]

theorem lookupFrame_updateFrame_ne (fs : Frames) (k : String) (f : Frame → Frame)
    (k' : String) (h : k' ≠ k) :
    lookupFrame (updateFrame fs k f) k' = lookupFrame fs k' := by
  have hkk : ¬ (k = k') := fun hk => h hk.symm
  induction fs with
  | nil => rfl
  | cons e fs ih =>
    rw [updateFrame_cons]
    by_cases h1 : e.1 = k
    · rw [if_pos (by simp [h1]), lookupFrame_cons, lookupFrame_cons]
      rw [if_neg (by simp [h1, hkk]), if_neg (by simp [h1, hkk])]
      exact ih
    · rw [if_neg (by simp [h1]), lookupFrame_cons, lookupFrame_cons]
      by_cases h2 : e.1 = k'
      · rw [if_pos (by simp [h2]), if_pos (by simp [h2])]
      · rw [if_neg (by simp [h2]), if_neg (by simp [h2])]
        exact ih

theorem hasFrame_updateFrame (fs : Frames) (k : String) (f : Frame → Frame) (k' : String) :
    hasFrame (updateFrame fs k f) k' = hasFrame fs k' := by
  by_cases h : k' = k
  · subst h; simp [hasFrame, lookupFrame_updateFrame_self]
  · simp [hasFrame, lookupFrame_updateFrame_ne fs k f k' h]

theorem length_updateFrame (fs : Frames) (k : String) (f : Frame → Frame) :
    (updateFrame fs k f).length = fs.length := by
  simp [updateFrame]

theorem keys_updateFrame (fs : Frames) (k : String) (f : Frame → Frame) :
    (updateFrame fs k f).map Prod.fst = fs.map Prod.fst := by
  induction fs with
  | nil => rfl
  | cons e fs ih =>
    by_cases h : e.1 = k <;> simp [updateFrame_cons, h, ih]

theorem lookupFrame_replace (fs : Frames) (k : String) (v : Frame)
    (h : hasFrame fs k = true) :
    lookupFrame (fs.map (fun e => if e.1 == k then (k, v) else e)) k = some v := by
  induction fs with
  | nil => simp [hasFrame, lookupFrame] at h
  | cons e fs ih =>
    rw [List.map_cons]
    by_cases h1 : e.1 = k
    · rw [if_pos (by simp [h1]), lookupFrame_cons, if_pos (by simp)]
    · have h' : hasFrame fs k = true := by
        simpa [hasFrame, lookupFrame_cons, h1] using h
      rw [if_neg (by simp [h1]), lookupFrame_cons, if_neg (by simp [h1])]
      exact ih h'

theorem lookupFrame_replace_ne (fs : Frames) (k : String) (v : Frame)
    (k' : String) (h : k' ≠ k) :
    lookupFrame (fs.map (fun e => if e.1 == k then (k, v) else e)) k' = lookupFrame fs k' := by
  have hkk : ¬ (k = k') := fun hk => h hk.symm
  induction fs with
  | nil => rfl
  | cons e fs ih =>
    rw [List.map_cons]
    by_cases h1 : e.1 = k
    · rw [if_pos (by simp [h1]), lookupFrame_cons, lookupFrame_cons]
      rw [if_neg (by simp [hkk]), if_neg (by simp [h1, hkk])]
      exact ih
    · rw [if_neg (by simp [h1]), lookupFrame_cons, lookupFrame_cons]
      by_cases h2 : e.1 = k'
      · rw [if_pos (by simp [h2]), if_pos (by simp [h2])]
      · rw [if_neg (by simp [h2]), if_neg (by simp [h2])]
        exact ih

theorem lookupFrame_eq_none_of_not_has (fs : Frames) (k : String)
    (h : hasFrame fs k = false) : lookupFrame fs k = none := by
  cases hh : lookupFrame fs k with
  | none => rfl
  | some v => rw [hasFrame, hh] at h; simp at h

theorem lookupFrame_insertFrame_self (fs : Frames) (k : String) (v : Frame) :
    lookupFrame (insertFrame fs k v) k = some v := by
  unfold insertFrame
  by_cases h : hasFrame fs k = true
  · rw [if_pos h]; exact lookupFrame_replace fs k v h
  · rw [if_neg h]
    have h0 : hasFrame fs k = false := by
      cases hh : hasFrame fs k
      · rfl
      · exact absurd hh h
    rw [lookupFrame_append, lookupFrame_eq_none_of_not_has fs k h0]
    simp [lookupFrame_cons]

theorem lookupFrame_insertFrame_ne (fs : Frames) (k : String) (v : Frame)
    (k' : String) (h : k' ≠ k) :
    lookupFrame (insertFrame fs k v) k' = lookupFrame fs k' := by
  unfold insertFrame
  by_cases hh : hasFrame fs k = true
  · rw [if_pos hh]; exact lookupFrame_replace_ne fs k v k' h
  · rw [if_neg hh, lookupFrame_append]
    have h2 : ¬ (k = k') := fun hk => h hk.symm
    cases hx : lookupFrame fs k' <;> simp [lookupFrame_cons, lookupFrame, h2]

theorem hasFrame_insertFrame_mono (fs : Frames) (k : String) (v : Frame)
    (k' : String) (h : hasFrame fs k' = true) :
    hasFrame (insertFrame fs k v) k' = true := by
  by_cases he : k' = k
  · subst he; simp [hasFrame, lookupFrame_insertFrame_self]
  · rwa [hasFrame, lookupFrame_insertFrame_ne fs k v k' he]

theorem length_insertFrame_of_fresh (fs : Frames) (k : String) (v : Frame)
    (h : hasFrame fs k = false) :
    (insertFrame fs k v).length = fs.length + 1 := by
  unfold insertFrame
  rw [if_neg (by rw [h]; simp)]
  simp

/-! Lemmas about `updateFirst` (the `findIndex`-then-assign pattern). -/

theorem find?_updateFirst (q : α → Bool) (f : α → α) (l : List α)
    (hpres : ∀ a, q a = true → q (f a) = true) :
    (updateFirst q f l).find? q = (l.find? q).map f := by
  induction l with
  | nil => rfl
  | cons x xs ih =>
    by_cases h : q x = true
    · rw [updateFirst, if_pos h, List.find?_cons, List.find?_cons]
      rw [hpres x h, h]
      rfl
    · have h0 : q x = false := by cases hq : q x <;> simp_all
      rw [updateFirst, if_neg (by rw [h0]; simp), List.find?_cons, List.find?_cons]
      rw [h0]
      exact ih

theorem updateFirst_sameKeys (q : α → Bool) (f : α → α) (l : List α)
    (hpres : ∀ a, q (f a) = q a) :
    (updateFirst q f l).map q = l.map q := by
  induction l with
  | nil => rfl
  | cons x xs ih =>
    by_cases h : q x = true
    · rw [updateFirst, if_pos h, List.map_cons, List.map_cons, hpres]
    · have h0 : q x = false := by cases hq : q x <;> simp_all
      rw [updateFirst, if_neg (by rw [h0]; simp), List.map_cons, List.map_cons, ih]

/-! Shape lemmas: which state fields each operation can touch. -/

theorem expandArrow_shape (arrowId : String) (s : StoreState) :
    (expandArrow arrowId s).frames = s.frames
    ∧ (expandArrow arrowId s).currentFrameId = s.currentFrameId
    ∧ (expandArrow arrowId s).breadcrumbs = s.breadcrumbs := by
  unfold expandArrow
  split
  · exact ⟨rfl, rfl, rfl⟩
  · split
    · split
      · exact ⟨rfl, rfl, rfl⟩
      · exact ⟨rfl, rfl, rfl⟩
    · exact ⟨rfl, rfl, rfl⟩

theorem navigateToFrame_frames (frameId : String) (s : StoreState) :
    (navigateToFrame frameId s).frames = s.frames := by
  unfold navigateToFrame
  split <;> rfl

theorem navigateBack_frames (s : StoreState) :
    (navigateBack s).frames = s.frames := by
  unfold navigateBack
  split <;> rfl

theorem createNode_shape (frameId : String) (p : NodePatch) (nid : String) (s : StoreState) :
    ((createNode frameId p nid s).1.currentFrameId = s.currentFrameId
      ∧ (createNode frameId p nid s).1.breadcrumbs = s.breadcrumbs
      ∧ (createNode frameId p nid s).1.expandedArrowId = s.expandedArrowId)
    ∧ (∀ k, hasFrame s.frames k = true →
        hasFrame (createNode frameId p nid s).1.frames k = true) := by
  unfold createNode
  refine ⟨?_, ?_⟩
  · split <;> exact ⟨rfl, rfl, rfl⟩
  · intro k hk
    split
    · rw [hasFrame_updateFrame]; exact hk
    · exact hk

theorem createArrow_shape (frameId : String) (p : ArrowPatch) (aid : String) (s : StoreState) :
    ((createArrow frameId p aid s).1.currentFrameId = s.currentFrameId
      ∧ (createArrow frameId p aid s).1.breadcrumbs = s.breadcrumbs
      ∧ (createArrow frameId p aid s).1.expandedArrowId = s.expandedArrowId)
    ∧ (∀ k, hasFrame s.frames k = true →
        hasFrame (createArrow frameId p aid s).1.frames k = true) := by
  unfold createArrow
  refine ⟨?_, ?_⟩
  · split <;> exact ⟨rfl, rfl, rfl⟩
  · intro k hk
    split
    · rw [hasFrame_updateFrame]; exact hk
    · exact hk

theorem createFrame_shape (p : FramePatch) (fid : String) (s : StoreState) :
    ((createFrame p fid s).1.currentFrameId = s.currentFrameId
      ∧ (createFrame p fid s).1.breadcrumbs = s.breadcrumbs
      ∧ (createFrame p fid s).1.expandedArrowId = s.expandedArrowId)
    ∧ (∀ k, hasFrame s.frames k = true →
        hasFrame (createFrame p fid s).1.frames k = true) := by
  refine ⟨⟨rfl, rfl, rfl⟩, ?_⟩
  intro k hk
  exact hasFrame_insertFrame_mono s.frames fid _ k hk

theorem createSubFrame_shape (arrowId : String) (p : FramePatch) (fid : String)
    (s : StoreState) :
    ((createSubFrame arrowId p fid s).1.currentFrameId = s.currentFrameId
      ∧ (createSubFrame arrowId p fid s).1.breadcrumbs = s.breadcrumbs
      ∧ (createSubFrame arrowId p fid s).1.expandedArrowId = s.expandedArrowId)
    ∧ (∀ k, hasFrame s.frames k = true →
        hasFrame (createSubFrame arrowId p fid s).1.frames k = true) := by
  unfold createSubFrame
  split
  · exact ⟨⟨rfl, rfl, rfl⟩, fun k hk => hk⟩
  · split
    · exact ⟨⟨rfl, rfl, rfl⟩, fun k hk => hk⟩
    · refine ⟨⟨rfl, rfl, rfl⟩, ?_⟩
      intro k hk
      show hasFrame (if _ then _ else _) k = true
      split
      · rw [hasFrame_updateFrame]
        exact hasFrame_insertFrame_mono s.frames fid _ k hk
      · exact hasFrame_insertFrame_mono s.frames fid _ k hk

/-! Sequences of operations. -/

theorem run_nil (s : StoreState) : run [] s = s := rfl

theorem run_cons (op : Op) (ops : List Op) (s : StoreState) :
    run (op :: ops) s = run ops (applyOp op s) := rfl

theorem run_append (ops more : List Op) (s : StoreState) :
    run (ops ++ more) s = run more (run ops s) := by
  simp [run, List.foldl_append]

theorem run_preserves (I : StoreState → Prop)
    (h : ∀ op s, I s → I (applyOp op s)) :
    ∀ (ops : List Op) (s : StoreState), I s → I (run ops s) := by
  intro ops
  induction ops with
  | nil => intro s hs; exact hs
  | cons op ops ih => intro s hs; exact ih _ (h op s hs)

/-- No operation ever removes a key from `frames`. -/
theorem hasFrame_applyOp_mono (op : Op) (s : StoreState) (k : String)
    (h : hasFrame s.frames k = true) :
    hasFrame (applyOp op s).frames k = true := by
  cases op with
  | expandArrow aid =>
    dsimp only [applyOp]; rw [(expandArrow_shape aid s).1]; exact h
  | collapseArrow => exact h
  | navigateToFrame fid =>
    dsimp only [applyOp]; rw [navigateToFrame_frames]; exact h
  | navigateBack =>
    dsimp only [applyOp]; rw [navigateBack_frames]; exact h
  | createNode fid p nid => exact (createNode_shape fid p nid s).2 k h
  | updateNode fid nid p =>
    dsimp only [applyOp, updateNode]; rw [hasFrame_updateFrame]; exact h
  | deleteNode fid nid =>
    dsimp only [applyOp, deleteNode]; rw [hasFrame_updateFrame]; exact h
  | createArrow fid p aid => exact (createArrow_shape fid p aid s).2 k h
  | updateArrow fid aid p =>
    dsimp only [applyOp, updateArrow]; rw [hasFrame_updateFrame]; exact h
  | deleteArrow fid aid =>
    dsimp only [applyOp, deleteArrow]; rw [hasFrame_updateFrame]; exact h
  | createFrame p fid => exact (createFrame_shape p fid s).2 k h
  | createSubFrame aid p fid => exact (createSubFrame_shape aid p fid s).2 k h

theorem goodState_of_eq {s t : StoreState}
    (hf : ∀ k, hasFrame s.frames k = true → hasFrame t.frames k = true)
    (hc : t.currentFrameId = s.currentFrameId) (hb : t.breadcrumbs = s.breadcrumbs)
    (h : GoodState s) : GoodState t := by
  obtain ⟨h1, h2, h3⟩ := h
  refine ⟨by rw [hb]; exact h1, by rw [hc]; exact hf _ h2, ?_⟩
  intro b hbmem
  rw [hb] at hbmem
  exact hf b (h3 b hbmem)

theorem goodState_applyOp (op : Op) (s : StoreState) (h : GoodState s) :
    GoodState (applyOp op s) := by
  obtain ⟨h1, h2, h3⟩ := h
  cases op with
  | navigateToFrame fid =>
    dsimp only [applyOp]
    unfold navigateToFrame
    by_cases hf : hasFrame s.frames fid = true
    · rw [if_pos hf]
      refine ⟨?_, hf, ?_⟩
      · show (if s.breadcrumbs.contains fid then _ else _) ≠ []
        by_cases hc : s.breadcrumbs.contains fid
        · rw [if_pos hc]
          intro hemp
          rw [List.take_eq_nil_iff] at hemp
          rcases hemp with h' | h'
          · exact Nat.succ_ne_zero _ h'
          · exact h1 h'
        · rw [if_neg hc]; simp
      · intro b hb
        change b ∈ (if s.breadcrumbs.contains fid then
            s.breadcrumbs.take (s.breadcrumbs.indexOf fid + 1)
          else s.breadcrumbs ++ [fid]) at hb
        show hasFrame s.frames b = true
        by_cases hc : s.breadcrumbs.contains fid
        · rw [if_pos hc] at hb
          exact h3 b (List.take_subset _ _ hb)
        · rw [if_neg hc] at hb
          rcases List.mem_append.mp hb with hb | hb
          · exact h3 b hb
          · rw [List.mem_singleton.mp hb]; exact hf
    · rw [if_neg hf]; exact ⟨h1, h2, h3⟩
  | navigateBack =>
    dsimp only [applyOp]
    unfold navigateBack
    by_cases hl : 1 < s.breadcrumbs.length
    · rw [if_pos hl]
      have hlt : s.breadcrumbs.length - 2 < s.breadcrumbs.length := by omega
      refine ⟨?_, ?_, ?_⟩
      · show s.breadcrumbs.dropLast ≠ []
        intro hemp
        have hlen := congrArg List.length hemp
        rw [List.length_dropLast] at hlen
        simp at hlen
        omega
      · show hasFrame s.frames (s.breadcrumbs.getD (s.breadcrumbs.length - 2) "") = true
        rw [List.getD_eq_getElem?_getD, List.getElem?_eq_getElem hlt]
        exact h3 _ (List.getElem_mem hlt)
      · intro b hb
        exact h3 b (List.dropLast_subset _ hb)
    · rw [if_neg hl]; exact ⟨h1, h2, h3⟩
  | expandArrow aid =>
    obtain ⟨hfr, hc, hb⟩ := expandArrow_shape aid s
    exact goodState_of_eq (fun k hk => hasFrame_applyOp_mono (.expandArrow aid) s k hk)
      hc hb ⟨h1, h2, h3⟩
  | collapseArrow => exact ⟨h1, h2, h3⟩
  | createNode fid p nid =>
    exact goodState_of_eq (fun k hk => hasFrame_applyOp_mono (.createNode fid p nid) s k hk)
      (createNode_shape fid p nid s).1.1 (createNode_shape fid p nid s).1.2.1 ⟨h1, h2, h3⟩
  | updateNode fid nid p =>
    exact goodState_of_eq (fun k hk => hasFrame_applyOp_mono (.updateNode fid nid p) s k hk)
      rfl rfl ⟨h1, h2, h3⟩
  | deleteNode fid nid =>
    exact goodState_of_eq (fun k hk => hasFrame_applyOp_mono (.deleteNode fid nid) s k hk)
      rfl rfl ⟨h1, h2, h3⟩
  | createArrow fid p aid =>
    exact goodState_of_eq (fun k hk => hasFrame_applyOp_mono (.createArrow fid p aid) s k hk)
      (createArrow_shape fid p aid s).1.1 (createArrow_shape fid p aid s).1.2.1 ⟨h1, h2, h3⟩
  | updateArrow fid aid p =>
    exact goodState_of_eq (fun k hk => hasFrame_applyOp_mono (.updateArrow fid aid p) s k hk)
      rfl rfl ⟨h1, h2, h3⟩
  | deleteArrow fid aid =>
    exact goodState_of_eq (fun k hk => hasFrame_applyOp_mono (.deleteArrow fid aid) s k hk)
      rfl rfl ⟨h1, h2, h3⟩
  | createFrame p fid =>
    exact goodState_of_eq (fun k hk => hasFrame_applyOp_mono (.createFrame p fid) s k hk)
      (createFrame_shape p fid s).1.1 (createFrame_shape p fid s).1.2.1 ⟨h1, h2, h3⟩
  | createSubFrame aid p fid =>
    exact goodState_of_eq (fun k hk => hasFrame_applyOp_mono (.createSubFrame aid p fid) s k hk)
      (createSubFrame_shape aid p fid s).1.1 (createSubFrame_shape aid p fid s).1.2.1 ⟨h1, h2, h3⟩

theorem goodState_initial : GoodState initialState := by
  refine ⟨by simp [initialState], by decide, ?_⟩
  intro b hb
  simp only [initialState, List.mem_singleton] at hb
  rw [hb]
  decide

theorem goodState_run (ops : List Op) : GoodState (run ops initialState) :=
  run_preserves GoodState goodState_applyOp ops initialState goodState_initial

/-! Breadcrumb list lemmas. -/

/-- `slice(0, indexOf(a) + 1)` yields a prefix of the list that ends at the
first occurrence of `a`. -/
theorem take_indexOf_spec (l : List String) (a : String) (h : l.contains a = true) :
    (∃ t, l = l.take (l.indexOf a + 1) ++ t)
    ∧ (l.take (l.indexOf a + 1)).getLast? = some a
    ∧ ((l.take (l.indexOf a + 1)).dropLast).contains a = false := by
  induction l with
  | nil => simp at h
  | cons x xs ih =>
    by_cases hx : x = a
    · subst hx
      rw [List.indexOf_cons_self]
      exact ⟨⟨xs, by simp⟩, by simp, by simp⟩
    · have hxs : xs.contains a = true := by
        rw [List.contains_cons] at h
        have hax : (a == x) = false := by
          simp only [beq_eq_false_iff_ne, ne_eq]
          exact fun hh => hx hh.symm
        rw [hax] at h
        simpa using h
      obtain ⟨⟨t, ht⟩, hl, hd⟩ := ih hxs
      rw [List.indexOf_cons_ne _ hx]
      rw [Nat.succ_eq_add_one, List.take_succ_cons]
      rcases hp : xs.take (xs.indexOf a + 1) with _ | ⟨y, ys⟩
      · rw [hp] at hl; simp at hl
      · rw [hp] at ht hl hd
        refine ⟨⟨t, by rw [List.cons_append, ← ht]⟩, ?_, ?_⟩
        · rw [List.getLast?_cons_cons]; exact hl
        · rw [List.dropLast_cons₂, List.contains_cons]
          simp only [Bool.or_eq_false_iff]
          exact ⟨by simpa using fun hh : a = x => hx hh.symm, hd⟩

/-- The last element of `dropLast` is the second-to-last of the list. -/
theorem getLast?_dropLast_of_one_lt (l : List String) (h : 1 < l.length) :
    l.dropLast.getLast? = some (l.getD (l.length - 2) "") := by
  have h2 : l.length - 2 < l.length := by omega
  have h3 : l.length - 2 < l.length - 1 := by omega
  rw [List.dropLast_eq_take, List.getLast?_eq_getElem? _, List.getD_eq_getElem?_getD]
  rw [List.length_take]
  have hmin : min (l.length - 1) l.length = l.length - 1 := by omega
  rw [hmin, List.getElem?_take]
  have hidx : l.length - 1 - 1 = l.length - 2 := by omega
  rw [hidx, if_pos h3, List.getElem?_eq_getElem h2]
  simp

/-! Claim theorems. -/

/-- C5: `navigateToFrame` on an existing frame sets `currentFrameId` to the
frame, clears `expandedArrowId`, leaves `frames` unchanged, and either
appends the frame id to the breadcrumbs (when absent) or truncates the
trail to end at its first occurrence, discarding everything after it; on a
frame id that is not in `frames` it changes nothing. -/
theorem C5_navigateToFrame (s : StoreState) (frameId : String) :
    (hasFrame s.frames frameId = true →
      (navigateToFrame frameId s).currentFrameId = frameId
      ∧ (navigateToFrame frameId s).expandedArrowId = none
      ∧ (navigateToFrame frameId s).frames = s.frames
      ∧ (s.breadcrumbs.contains frameId = false →
          (navigateToFrame frameId s).breadcrumbs = s.breadcrumbs ++ [frameId])
      ∧ (s.breadcrumbs.contains frameId = true →
          (∃ t, s.breadcrumbs = (navigateToFrame frameId s).breadcrumbs ++ t)
          ∧ (navigateToFrame frameId s).breadcrumbs.getLast? = some frameId
          ∧ ((navigateToFrame frameId s).breadcrumbs.dropLast).contains frameId = false))
    ∧ (hasFrame s.frames frameId = false → navigateToFrame frameId s = s) := by
  constructor
  · intro hf
    have hcur : (navigateToFrame frameId s).currentFrameId = frameId := by
      unfold navigateToFrame; rw [if_pos hf]
    have hexp : (navigateToFrame frameId s).expandedArrowId = none := by
      unfold navigateToFrame; rw [if_pos hf]
    refine ⟨hcur, hexp, navigateToFrame_frames frameId s, ?_, ?_⟩
    · intro hc
      unfold navigateToFrame
      rw [if_pos hf]
      show (if s.breadcrumbs.contains frameId then _ else _) = _
      rw [if_neg (by rw [hc]; simp)]
    · intro hc
      have hbc : (navigateToFrame frameId s).breadcrumbs
          = s.breadcrumbs.take (s.breadcrumbs.indexOf frameId + 1) := by
        unfold navigateToFrame
        rw [if_pos hf]
        show (if s.breadcrumbs.contains frameId then _ else _) = _
        rw [if_pos hc]
      rw [hbc]
      exact take_indexOf_spec s.breadcrumbs frameId hc
  · intro hf
    unfold navigateToFrame
    rw [if_neg (by rw [hf]; simp)]

theorem C5_witness :
    (navigateToFrame "scientific-carbon" initialState).currentFrameId = "scientific-carbon"
    ∧ (navigateToFrame "scientific-carbon" initialState).breadcrumbs
        = initialState.breadcrumbs ++ ["scientific-carbon"] := by
  have h1 := (C5_navigateToFrame initialState "scientific-carbon").1 (by decide)
  exact ⟨h1.1, h1.2.2.2.1 (by decide)⟩

/-- C6: when `frameId` is not a key of `frames`, `createNode` leaves the
whole store state unchanged and still returns the generated id, which
(being fresh) names no node anywhere in the store afterwards. -/
theorem C6_createNode_missing_frame (s : StoreState) (frameId : String)
    (p : NodePatch) (nid : String)
    (h : hasFrame s.frames frameId = false) :
    (createNode frameId p nid s).1 = s
    ∧ (createNode frameId p nid s).2 = nid
    ∧ (nodeInStore s nid = false →
        nodeInStore (createNode frameId p nid s).1 nid = false) := by
  have hsteq : createNode frameId p nid s = (s, nid) := by
    unfold createNode
    simp [h]
  rw [hsteq]
  exact ⟨rfl, rfl, fun hh => hh⟩

theorem C6_witness :
    hasFrame initialState.frames "no-such-frame" = false
    ∧ (createNode "no-such-frame" {} "fresh-node" initialState).1 = initialState :=
  ⟨by decide,
   (C6_createNode_missing_frame initialState "no-such-frame" {} "fresh-node" (by decide)).1⟩

/-- C7: `deleteNode frameId nodeId` removes from the named frame exactly
the nodes with that id and exactly the arrows whose source or target is
that id, and nothing else: other frames, the frame keys, and the
navigation state are unchanged. -/
theorem C7_deleteNode_cascade (s : StoreState) (frameId nodeId : String)
    (fr : Frame) (h : lookupFrame s.frames frameId = some fr) :
    (∃ fr', lookupFrame (deleteNode frameId nodeId s).frames frameId = some fr'
      ∧ (∀ n, n ∈ fr'.nodes ↔ n ∈ fr.nodes ∧ ¬ n.id = nodeId)
      ∧ (∀ a, a ∈ fr'.arrows ↔ a ∈ fr.arrows ∧ ¬ a.source = nodeId ∧ ¬ a.target = nodeId))
    ∧ (∀ k, k ≠ frameId →
        lookupFrame (deleteNode frameId nodeId s).frames k = lookupFrame s.frames k)
    ∧ (deleteNode frameId nodeId s).frames.map Prod.fst = s.frames.map Prod.fst
    ∧ (deleteNode frameId nodeId s).currentFrameId = s.currentFrameId
    ∧ (deleteNode frameId nodeId s).breadcrumbs = s.breadcrumbs
    ∧ (deleteNode frameId nodeId s).expandedArrowId = s.expandedArrowId := by
  have hframes : (deleteNode frameId nodeId s).frames
      = updateFrame s.frames frameId (fun fr => { fr with
          nodes := fr.nodes.filter (fun n => !(n.id == nodeId))
          arrows := fr.arrows.filter
            (fun a => !(a.source == nodeId) && !(a.target == nodeId)) }) := rfl
  refine ⟨?_, ?_, ?_, rfl, rfl, rfl⟩
  · refine ⟨{ fr with
        nodes := fr.nodes.filter (fun n => !(n.id == nodeId))
        arrows := fr.arrows.filter
          (fun a => !(a.source == nodeId) && !(a.target == nodeId)) }, ?_, ?_, ?_⟩
    · rw [hframes, lookupFrame_updateFrame_self, h]
      rfl
    · intro n
      constructor
      · intro hn
        have := List.mem_filter.mp hn
        refine ⟨this.1, ?_⟩
        have hb := this.2
        simpa using hb
      · intro ⟨hn, hne⟩
        exact List.mem_filter.mpr ⟨hn, by simpa using hne⟩
    · intro a
      constructor
      · intro ha
        have := List.mem_filter.mp ha
        refine ⟨this.1, ?_⟩
        have hb := this.2
        rw [Bool.and_eq_true] at hb
        exact ⟨by simpa using hb.1, by simpa using hb.2⟩
      · intro ⟨ha, hs, ht⟩
        refine List.mem_filter.mpr ⟨ha, ?_⟩
        rw [Bool.and_eq_true]
        exact ⟨by simpa using hs, by simpa using ht⟩
  · intro k hk
    rw [hframes]
    exact lookupFrame_updateFrame_ne s.frames frameId _ k hk
  · rw [hframes]
    exact keys_updateFrame s.frames frameId _

theorem C7_witness :
    lookupFrame initialState.frames "main" = some mainFrame
    ∧ (deleteNode "main" "carbon-tax" initialState).frames.map Prod.fst
        = initialState.frames.map Prod.fst :=
  ⟨by decide,
   (C7_deleteNode_cascade initialState "main" "carbon-tax" mainFrame (by decide)).2.2.1⟩

/-- C8: from the seed state the breadcrumbs are never empty after any run;
after a successful `navigateToFrame`, and after a `navigateBack` with more
than one breadcrumb, the last breadcrumb equals `currentFrameId`;
`navigateBack` with at most one breadcrumb changes nothing, and otherwise
it sets the current frame to the second-to-last entry, clears
`expandedArrowId` and pops the last entry. -/
theorem C8_breadcrumb_invariant :
    (∀ ops : List Op, (run ops initialState).breadcrumbs ≠ [])
    ∧ (∀ (s : StoreState) (fid : String), hasFrame s.frames fid = true →
        (navigateToFrame fid s).breadcrumbs.getLast?
          = some (navigateToFrame fid s).currentFrameId)
    ∧ (∀ s : StoreState, s.breadcrumbs.length ≤ 1 → navigateBack s = s)
    ∧ (∀ s : StoreState, 1 < s.breadcrumbs.length →
        (navigateBack s).currentFrameId = s.breadcrumbs.getD (s.breadcrumbs.length - 2) ""
        ∧ (navigateBack s).expandedArrowId = none
        ∧ (navigateBack s).breadcrumbs = s.breadcrumbs.dropLast
        ∧ (navigateBack s).breadcrumbs.getLast? = some (navigateBack s).currentFrameId) := by
  refine ⟨fun ops => (goodState_run ops).1, ?_, ?_, ?_⟩
  · intro s fid hf
    have hcur : (navigateToFrame fid s).currentFrameId = fid := by
      unfold navigateToFrame; rw [if_pos hf]
    by_cases hc : s.breadcrumbs.contains fid
    · have hbc : (navigateToFrame fid s).breadcrumbs
          = s.breadcrumbs.take (s.breadcrumbs.indexOf fid + 1) := by
        unfold navigateToFrame
        rw [if_pos hf]
        show (if s.breadcrumbs.contains fid then _ else _) = _
        rw [if_pos hc]
      rw [hbc, hcur]
      exact (take_indexOf_spec s.breadcrumbs fid hc).2.1
    · have hbc : (navigateToFrame fid s).breadcrumbs = s.breadcrumbs ++ [fid] := by
        unfold navigateToFrame
        rw [if_pos hf]
        show (if s.breadcrumbs.contains fid then _ else _) = _
        rw [if_neg hc]
      rw [hbc, hcur]
      exact List.getLast?_concat s.breadcrumbs
  · intro s hle
    unfold navigateBack
    rw [if_neg (by omega)]
  · intro s hl
    have hbc : (navigateBack s).breadcrumbs = s.breadcrumbs.dropLast := by
      unfold navigateBack; rw [if_pos hl]
    have hcur : (navigateBack s).currentFrameId
        = s.breadcrumbs.getD (s.breadcrumbs.length - 2) "" := by
      unfold navigateBack; rw [if_pos hl]
    have hexp : (navigateBack s).expandedArrowId = none := by
      unfold navigateBack; rw [if_pos hl]
    refine ⟨hcur, hexp, hbc, ?_⟩
    rw [hbc, hcur]
    exact getLast?_dropLast_of_one_lt s.breadcrumbs hl

theorem C8_witness :
    (run [] initialState).breadcrumbs ≠ []
    ∧ (navigateToFrame "scientific-carbon" initialState).breadcrumbs.getLast?
        = some (navigateToFrame "scientific-carbon" initialState).currentFrameId
    ∧ navigateBack initialState = initialState
    ∧ (navigateBack (navigateToFrame "scientific-carbon" initialState)).breadcrumbs
        = (navigateToFrame "scientific-carbon" initialState).breadcrumbs.dropLast :=
  ⟨C8_breadcrumb_invariant.1 [],
   C8_breadcrumb_invariant.2.1 initialState "scientific-carbon" (by decide),
   C8_breadcrumb_invariant.2.2.1 initialState (by decide),
   (C8_breadcrumb_invariant.2.2.2 (navigateToFrame "scientific-carbon" initialState)
      (by decide)).2.2.1⟩

/-- C10: no store operation removes a key from `frames`: every key survives
each operation and every continuation of a run from the seed state, and the
current frame id and all breadcrumb entries always resolve to existing
frames. -/
theorem C10_frames_monotone :
    (∀ (op : Op) (s : StoreState) (k : String),
        hasFrame s.frames k = true → hasFrame (applyOp op s).frames k = true)
    ∧ (∀ (ops more : List Op) (k : String),
        hasFrame (run ops initialState).frames k = true →
        hasFrame (run (ops ++ more) initialState).frames k = true)
    ∧ (∀ ops : List Op, navResolves (run ops initialState) = true) := by
  refine ⟨hasFrame_applyOp_mono, ?_, ?_⟩
  · intro ops more k h
    rw [run_append]
    exact run_preserves (fun t => hasFrame t.frames k = true)
      (fun op s hs => hasFrame_applyOp_mono op s k hs) more _ h
  · intro ops
    obtain ⟨h1, h2, h3⟩ := goodState_run ops
    simp only [navResolves, Bool.and_eq_true, List.all_eq_true]
    exact ⟨h2, h3⟩

/-- C2 counterexample: the seed state satisfies referential integrity, yet
one `createArrow` call with default fields (source and target default to
the empty string, with no endpoint check) breaks it. -/
theorem C2_counterexample :
    refIntegrity initialState = true
    ∧ refIntegrity (applyOp (.createArrow "main" {} "new-arrow") initialState) = false :=
  ⟨by decide, by decide⟩

theorem frameRefOk_addNode (fr : Frame) (n : Node) (h : frameRefOk fr = true) :
    frameRefOk { fr with nodes := fr.nodes ++ [n] } = true := by
  rw [frameRefOk, List.all_eq_true] at h ⊢
  intro a ha
  have hh := h a ha
  rw [Bool.and_eq_true] at hh ⊢
  unfold nodeExists at hh ⊢
  simp only [List.any_eq_true] at hh ⊢
  obtain ⟨⟨x, hx, hxe⟩, ⟨y, hy, hye⟩⟩ := hh
  exact ⟨⟨x, List.mem_append_left _ hx, hxe⟩, ⟨y, List.mem_append_left _ hy, hye⟩⟩

theorem frameRefOk_deleteNode (fr : Frame) (nodeId : String) (h : frameRefOk fr = true) :
    frameRefOk { fr with
      nodes := fr.nodes.filter (fun n => !(n.id == nodeId))
      arrows := fr.arrows.filter
        (fun a => !(a.source == nodeId) && !(a.target == nodeId)) } = true := by
  rw [frameRefOk, List.all_eq_true]
  intro a ha
  have hmem := List.mem_filter.mp ha
  have hst := hmem.2
  rw [Bool.and_eq_true] at hst
  have hs : ¬ a.source = nodeId := by simpa using hst.1
  have ht : ¬ a.target = nodeId := by simpa using hst.2
  have hh := (List.all_eq_true.mp h) a hmem.1
  rw [Bool.and_eq_true] at hh ⊢
  unfold nodeExists at hh ⊢
  simp only [List.any_eq_true] at hh ⊢
  obtain ⟨⟨x, hx, hxe⟩, ⟨y, hy, hye⟩⟩ := hh
  have hxid : x.id = a.source := by simpa using hxe
  have hyid : y.id = a.target := by simpa using hye
  constructor
  · exact ⟨x, List.mem_filter.mpr ⟨hx, by simp [hxid, hs]⟩, hxe⟩
  · exact ⟨y, List.mem_filter.mpr ⟨hy, by simp [hyid, ht]⟩, hye⟩

theorem frameRefOk_filterArrows (fr : Frame) (q : Arrow → Bool) (h : frameRefOk fr = true) :
    frameRefOk { fr with arrows := fr.arrows.filter q } = true := by
  rw [frameRefOk, List.all_eq_true] at h ⊢
  intro a ha
  exact h a (List.mem_filter.mp ha).1

theorem all_frameRefOk_updateFrame (fs : Frames) (k : String) (g : Frame → Frame)
    (hg : ∀ fr, frameRefOk fr = true → frameRefOk (g fr) = true)
    (h : fs.all (fun e => frameRefOk e.2) = true) :
    (updateFrame fs k g).all (fun e => frameRefOk e.2) = true := by
  rw [List.all_eq_true] at h ⊢
  intro e he
  unfold updateFrame at he
  obtain ⟨e0, he0, heq⟩ := List.mem_map.mp he
  by_cases hx : (e0.1 == k) = true
  · rw [if_pos hx] at heq
    rw [← heq]
    exact hg e0.2 (h e0 he0)
  · rw [if_neg hx] at heq
    rw [← heq]
    exact h e0 he0

theorem refIntegrity_applyOp (op : Op) (s : StoreState)
    (hop : preservesEndpoints op = true) (h : refIntegrity s = true) :
    refIntegrity (applyOp op s) = true := by
  cases op with
  | expandArrow aid =>
    rw [refIntegrity] at h ⊢
    dsimp only [applyOp]
    rw [(expandArrow_shape aid s).1]
    exact h
  | collapseArrow => exact h
  | navigateToFrame fid =>
    rw [refIntegrity] at h ⊢
    dsimp only [applyOp]
    rw [navigateToFrame_frames]
    exact h
  | navigateBack =>
    rw [refIntegrity] at h ⊢
    dsimp only [applyOp]
    rw [navigateBack_frames]
    exact h
  | createNode fid p nid =>
    dsimp only [applyOp]
    unfold createNode
    dsimp only
    split
    · rw [refIntegrity] at h ⊢
      exact all_frameRefOk_updateFrame s.frames fid _
        (fun fr hfr => frameRefOk_addNode fr _ hfr) h
    · exact h
  | deleteNode fid nid =>
    rw [refIntegrity] at h ⊢
    exact all_frameRefOk_updateFrame s.frames fid _
      (fun fr hfr => frameRefOk_deleteNode fr nid hfr) h
  | deleteArrow fid aid =>
    rw [refIntegrity] at h ⊢
    exact all_frameRefOk_updateFrame s.frames fid _
      (fun fr hfr => frameRefOk_filterArrows fr _ hfr) h
  | updateNode fid nid p => simp [preservesEndpoints] at hop
  | createArrow fid p aid => simp [preservesEndpoints] at hop
  | updateArrow fid aid p => simp [preservesEndpoints] at hop
  | createFrame p fid => simp [preservesEndpoints] at hop
  | createSubFrame aid p fid => simp [preservesEndpoints] at hop

/-- C2 amended: referential integrity is preserved by `deleteNode` (the
cascade removes every incident arrow), `deleteArrow`, `createNode`,
expansion and navigation — but not by the store as a whole: `createArrow`
and `updateArrow` perform no endpoint checks (and `updateNode` can rename
a node id, and frame creation accepts caller-supplied contents), so the
invariant fails after e.g. a default-field `createArrow`. -/
theorem C2_amended (ops : List Op) (s : StoreState)
    (hops : ∀ op ∈ ops, preservesEndpoints op = true)
    (h : refIntegrity s = true) : refIntegrity (run ops s) = true := by
  induction ops generalizing s with
  | nil => exact h
  | cons op ops ih =>
    rw [run_cons]
    exact ih _ (fun o ho => hops o (List.mem_cons_of_mem _ ho))
      (refIntegrity_applyOp op s (hops op (List.mem_cons_self _ _)) h)

theorem C2_amended_witness :
    (∀ op ∈ [Op.deleteNode "main" "carbon-tax"], preservesEndpoints op = true)
    ∧ refIntegrity initialState = true
    ∧ refIntegrity (run [Op.deleteNode "main" "carbon-tax"] initialState) = true :=
  ⟨by decide, by decide,
   C2_amended [Op.deleteNode "main" "carbon-tax"] initialState (by decide) (by decide)⟩

theorem expandArrow_eq_of_found (s : StoreState) (arrowId : String) (cf : Frame) (a : Arrow)
    (hc : lookupFrame s.frames s.currentFrameId = some cf)
    (hfind : cf.arrows.find? (fun x => x.id == arrowId) = some a) :
    expandArrow arrowId s =
      if a.hasSubFrame && strOptTruthy a.subFrameId then
        { s with expandedArrowId := some arrowId }
      else s := by
  unfold expandArrow
  rw [hc]
  dsimp only
  rw [hfind]

/-- C3 counterexample: after `updateArrow` plants `hasSubFrame = true` with
a `subFrameId` that resolves to no frame, `expandArrow` still sets
`expandedArrowId` (from `none` to the arrow id), so resolvability of
`subFrameId` is not part of the gate. -/
theorem C3_counterexample :
    hasFrame (updateArrow "main" "arrow-scientific-to-economic"
        { hasSubFrame := some true, subFrameId := some "ghost" } initialState).frames
        "ghost" = false
    ∧ (expandArrow "arrow-scientific-to-economic"
        (updateArrow "main" "arrow-scientific-to-economic"
          { hasSubFrame := some true, subFrameId := some "ghost" } initialState)).expandedArrowId
        = some "arrow-scientific-to-economic"
    ∧ (updateArrow "main" "arrow-scientific-to-economic"
        { hasSubFrame := some true, subFrameId := some "ghost" } initialState).expandedArrowId
        = none :=
  ⟨by decide, by decide, by decide⟩

/-- C3 amended: `expandArrow` sets `expandedArrowId` to the arrow id
exactly when the current frame's arrow list has a first match with that id
whose `hasSubFrame` is true and whose `subFrameId` is a non-empty string;
in every other case the state is unchanged.  Whether the `subFrameId`
resolves to an existing frame is not checked. -/
theorem C3_amended (s : StoreState) (arrowId : String) (cf : Frame)
    (hc : lookupFrame s.frames s.currentFrameId = some cf) :
    ((∃ a, cf.arrows.find? (fun x => x.id == arrowId) = some a
        ∧ a.hasSubFrame = true ∧ strOptTruthy a.subFrameId = true) →
      expandArrow arrowId s = { s with expandedArrowId := some arrowId })
    ∧ ((∀ a, cf.arrows.find? (fun x => x.id == arrowId) = some a →
          ¬ (a.hasSubFrame = true ∧ strOptTruthy a.subFrameId = true)) →
      expandArrow arrowId s = s) := by
  constructor
  · intro ⟨a, hfind, hsub, htr⟩
    rw [expandArrow_eq_of_found s arrowId cf a hc hfind]
    rw [if_pos (by rw [hsub, htr]; rfl)]
  · intro hall
    cases hfind : cf.arrows.find? (fun x => x.id == arrowId) with
    | none =>
      unfold expandArrow
      rw [hc]
      dsimp only
      rw [hfind]
    | some a =>
      rw [expandArrow_eq_of_found s arrowId cf a hc hfind]
      have hna : ¬ ((a.hasSubFrame && strOptTruthy a.subFrameId) = true) := by
        rw [Bool.and_eq_true]
        exact hall a hfind
      rw [if_neg hna]

theorem C3_witness :
    expandArrow "arrow-scientific-to-carbon" initialState
      = { initialState with expandedArrowId := some "arrow-scientific-to-carbon" } :=
  (C3_amended initialState "arrow-scientific-to-carbon" mainFrame (by decide)).1
    ⟨{ id := "arrow-scientific-to-carbon", source := "scientific-evidence",
       target := "carbon-tax", type := "logical",
       hasSubFrame := true, subFrameId := some "scientific-carbon" },
     by decide, rfl, rfl⟩

theorem createSubFrame_eq_of_found (arrowId : String) (p : FramePatch) (nid : String)
    (s : StoreState) (cf : Frame) (a : Arrow)
    (hc : lookupFrame s.frames s.currentFrameId = some cf)
    (hfind : cf.arrows.find? (fun x => x.id == arrowId) = some a) :
    createSubFrame arrowId p nid s =
      (let newFrame : Frame :=
        { id := p.id.getD nid
          title := p.title.getD "New Sub-Frame"
          description := some (p.description.getD "")
          nodes := p.nodes.getD []
          arrows := p.arrows.getD []
          parentArrowId := some (p.parentArrowId.getD arrowId)
          level := p.level.getD (cf.level + 1) }
      let frames1 := insertFrame s.frames nid newFrame
      let frames2 :=
        if hasFrame frames1 s.currentFrameId then
          updateFrame frames1 s.currentFrameId
            (fun fr => { fr with
              arrows := updateFirst (fun x => x.id == arrowId)
                (fun x => { x with hasSubFrame := true, subFrameId := some nid })
                fr.arrows })
        else frames1
      ({ s with frames := frames2 }, nid)) := by
  unfold createSubFrame
  rw [hc]
  dsimp only
  rw [hfind]

/-- Joint description of a successful `createSubFrame` call with a fresh
generated id: it returns the generated id, stores the merged new frame
under that id, grows `frames` by one entry, and rewrites the first
matching arrow of the current frame to point at the generated id. -/
theorem createSubFrame_components (arrowId : String) (p : FramePatch) (nid : String)
    (s : StoreState) (cf : Frame) (a : Arrow)
    (hc : lookupFrame s.frames s.currentFrameId = some cf)
    (hfind : cf.arrows.find? (fun x => x.id == arrowId) = some a)
    (hfresh : hasFrame s.frames nid = false) :
    (createSubFrame arrowId p nid s).2 = nid
    ∧ lookupFrame (createSubFrame arrowId p nid s).1.frames nid
        = some { id := p.id.getD nid
                 title := p.title.getD "New Sub-Frame"
                 description := some (p.description.getD "")
                 nodes := p.nodes.getD []
                 arrows := p.arrows.getD []
                 parentArrowId := some (p.parentArrowId.getD arrowId)
                 level := p.level.getD (cf.level + 1) }
    ∧ (createSubFrame arrowId p nid s).1.frames.length = s.frames.length + 1
    ∧ lookupFrame (createSubFrame arrowId p nid s).1.frames s.currentFrameId
        = some { cf with
            arrows := updateFirst (fun x => x.id == arrowId)
              (fun x => { x with hasSubFrame := true, subFrameId := some nid })
              cf.arrows } := by
  have hcur : hasFrame s.frames s.currentFrameId = true := by
    rw [hasFrame, hc]; rfl
  have hne : ¬ (s.currentFrameId = nid) := by
    intro he
    rw [← he] at hfresh
    rw [hcur] at hfresh
    exact Bool.noConfusion hfresh
  have hne' : ¬ (nid = s.currentFrameId) := fun he => hne he.symm
  have hhas1 : ∀ v : Frame, hasFrame (insertFrame s.frames nid v) s.currentFrameId = true :=
    fun v => hasFrame_insertFrame_mono s.frames nid v s.currentFrameId hcur
  rw [createSubFrame_eq_of_found arrowId p nid s cf a hc hfind]
  dsimp only
  rw [if_pos (hhas1 _)]
  refine ⟨rfl, ?_, ?_, ?_⟩
  · rw [lookupFrame_updateFrame_ne _ _ _ nid hne']
    exact lookupFrame_insertFrame_self s.frames nid _
  · rw [length_updateFrame]
    exact length_insertFrame_of_fresh s.frames nid _ hfresh
  · rw [lookupFrame_updateFrame_self]
    rw [lookupFrame_insertFrame_ne s.frames nid _ s.currentFrameId hne, hc]
    rfl

/-- C1 counterexample: in the seed state the arrow
`arrow-scientific-to-carbon` already has `subFrameId = "scientific-carbon"`,
yet `createSubFrame` returns the fresh generated id rather than the
existing sub-frame id and adds a new entry to `frames`; a second call
returns another id and adds yet another entry. -/
theorem C1_counterexample :
    (createSubFrame "arrow-scientific-to-carbon" {} "fresh-1" initialState).2
      ≠ "scientific-carbon"
    ∧ ((createSubFrame "arrow-scientific-to-carbon" {} "fresh-1" initialState).1).frames.length
        = initialState.frames.length + 1
    ∧ (createSubFrame "arrow-scientific-to-carbon" {} "fresh-2"
        ((createSubFrame "arrow-scientific-to-carbon" {} "fresh-1" initialState).1)).2
      ≠ (createSubFrame "arrow-scientific-to-carbon" {} "fresh-1" initialState).2
    ∧ ((createSubFrame "arrow-scientific-to-carbon" {} "fresh-2"
        ((createSubFrame "arrow-scientific-to-carbon" {} "fresh-1" initialState).1)).1).frames.length
        = initialState.frames.length + 2 :=
  ⟨by decide, by decide, by decide, by decide⟩

/-- C1 amended: `createSubFrame` never special-cases an arrow that already
has a `subFrameId`: whenever the arrow resolves in the current frame and
the generated id is fresh, the call returns the generated id, adds exactly
one new frame under it, and overwrites the arrow's `subFrameId` with the
generated id (setting `hasSubFrame = true`); two calls with distinct fresh
ids therefore yield distinct sub-frame ids and add two frames.  The
visibility toggle for an existing sub-frame lives in the arrow edit panel,
which calls `updateArrow` instead. -/
theorem C1_amended (s : StoreState) (arrowId : String) (p : FramePatch)
    (nid : String) (cf : Frame) (a : Arrow)
    (hc : lookupFrame s.frames s.currentFrameId = some cf)
    (hfind : cf.arrows.find? (fun x => x.id == arrowId) = some a)
    (hfresh : hasFrame s.frames nid = false) :
    (createSubFrame arrowId p nid s).2 = nid
    ∧ hasFrame (createSubFrame arrowId p nid s).1.frames nid = true
    ∧ (createSubFrame arrowId p nid s).1.frames.length = s.frames.length + 1
    ∧ (∃ cf', lookupFrame (createSubFrame arrowId p nid s).1.frames s.currentFrameId
          = some cf'
        ∧ cf'.arrows.find? (fun x => x.id == arrowId)
          = some { a with hasSubFrame := true, subFrameId := some nid }) := by
  obtain ⟨h1, h2, h3, h4⟩ := createSubFrame_components arrowId p nid s cf a hc hfind hfresh
  refine ⟨h1, by rw [hasFrame, h2]; rfl, h3, ⟨_, h4, ?_⟩⟩
  rw [find?_updateFirst (fun x => x.id == arrowId)
    (fun x => { x with hasSubFrame := true, subFrameId := some nid }) cf.arrows
    (fun _ hx => hx), hfind]
  rfl

theorem C1_amended_witness :
    (createSubFrame "arrow-scientific-to-carbon" {} "fresh-1" initialState).2 = "fresh-1"
    ∧ ((createSubFrame "arrow-scientific-to-carbon" {} "fresh-1" initialState).1).frames.length
        = initialState.frames.length + 1 := by
  have h := C1_amended initialState "arrow-scientific-to-carbon" {} "fresh-1" mainFrame
    { id := "arrow-scientific-to-carbon", source := "scientific-evidence",
      target := "carbon-tax", type := "logical",
      hasSubFrame := true, subFrameId := some "scientific-carbon" }
    (by decide) (by decide) (by decide)
  exact ⟨h.1, h.2.2.1⟩

/-- C4 counterexample: a `fields` value that itself carries `level` is
spread after the derived values, so the allocated sub-frame keeps the
caller's level (here 99) instead of the current frame's level plus one. -/
theorem C4_counterexample :
    lookupFrame ((createSubFrame "arrow-scientific-to-economic" { level := some 99 }
        "f-x" initialState).1).frames "f-x"
      = some { id := "f-x", title := "New Sub-Frame", description := some "",
               nodes := [], arrows := [],
               parentArrowId := some "arrow-scientific-to-economic", level := 99 }
    ∧ mainFrame.level + 1 ≠ (99 : Int) :=
  ⟨by decide, by decide⟩

/-- C4 amended: provided the caller's `fields` supply neither `level` nor
`parentArrowId` (the patch is spread last and would override them), the
frame allocated by `createSubFrame` for a resolvable arrow has
`level = currentFrame.level + 1` and `parentArrowId = arrowId`, regardless
of how many other frames exist. -/
theorem C4_amended (s : StoreState) (arrowId : String) (p : FramePatch)
    (nid : String) (cf : Frame) (a : Arrow)
    (hc : lookupFrame s.frames s.currentFrameId = some cf)
    (hfind : cf.arrows.find? (fun x => x.id == arrowId) = some a)
    (hfresh : hasFrame s.frames nid = false)
    (hlev : p.level = none) (hpar : p.parentArrowId = none) :
    ∃ fr, lookupFrame (createSubFrame arrowId p nid s).1.frames nid = some fr
      ∧ fr.level = cf.level + 1 ∧ fr.parentArrowId = some arrowId := by
  obtain ⟨-, h2, -, -⟩ := createSubFrame_components arrowId p nid s cf a hc hfind hfresh
  refine ⟨_, h2, ?_, ?_⟩
  · show p.level.getD (cf.level + 1) = cf.level + 1
    rw [hlev, Option.getD_none]
  · show some (p.parentArrowId.getD arrowId) = some arrowId
    rw [hpar, Option.getD_none]

theorem C4_amended_witness :
    ∃ fr, lookupFrame ((createSubFrame "arrow-scientific-to-economic" {}
        "f-y" initialState).1).frames "f-y" = some fr
      ∧ fr.level = mainFrame.level + 1 ∧ fr.parentArrowId = some "arrow-scientific-to-economic" :=
  C4_amended initialState "arrow-scientific-to-economic" {} "f-y" mainFrame
    { id := "arrow-scientific-to-economic", source := "scientific-evidence",
      target := "economic-analysis", type := "supportive",
      hasSubFrame := false, subFrameId := none }
    (by decide) (by decide) (by decide) rfl rfl

theorem createNode_eq_of_found (frameId : String) (p : NodePatch) (nid : String)
    (s : StoreState) (h : hasFrame s.frames frameId = true) :
    createNode frameId p nid s =
      ({ s with frames := (updateFrame s.frames frameId
          (fun fr => { fr with nodes := fr.nodes ++
            [{ id := p.id.getD nid, type := p.type.getD "proposition",
               content := p.content.getD "",
               position := p.position.getD { x := 100, y := 100 },
               data := p.data }] })) }, nid) := by
  unfold createNode
  dsimp only
  rw [if_pos h]

theorem createArrow_eq_of_found (frameId : String) (p : ArrowPatch) (aid : String)
    (s : StoreState) (h : hasFrame s.frames frameId = true) :
    createArrow frameId p aid s =
      ({ s with frames := (updateFrame s.frames frameId
          (fun fr => { fr with arrows := fr.arrows ++
            [{ id := p.id.getD aid, source := p.source.getD "",
               target := p.target.getD "", type := p.type.getD "logical",
               hasSubFrame := p.hasSubFrame.getD false,
               subFrameId := p.subFrameId }] })) }, aid) := by
  unfold createArrow
  dsimp only
  rw [if_pos h]

theorem nodeExists_append_single (fr : Frame) (n : Node) (nid : String) :
    nodeExists { fr with nodes := fr.nodes ++ [n] } nid
      = (nodeExists fr nid || (n.id == nid)) := by
  unfold nodeExists
  dsimp only
  rw [List.any_append]
  simp

theorem anyArrow_append_single (fr : Frame) (a : Arrow) (aid : String) :
    ({ fr with arrows := fr.arrows ++ [a] } : Frame).arrows.any (fun x => x.id == aid)
      = (fr.arrows.any (fun x => x.id == aid) || (a.id == aid)) := by
  dsimp only
  rw [List.any_append]
  simp

/-- C9 counterexample: for `createSubFrame` with a caller-supplied `id`,
the new frame is inserted into `frames` under the generated key, so the
returned id does name an entity in the store — a frame whose internal `id`
field is the caller's id — contradicting the claim that the returned id
names no entity. -/
theorem C9_counterexample :
    (createSubFrame "arrow-scientific-to-economic" { id := some "custom-id" }
        "gen-id" initialState).2 = "gen-id"
    ∧ lookupFrame ((createSubFrame "arrow-scientific-to-economic"
        { id := some "custom-id" } "gen-id" initialState).1).frames "gen-id"
      = some { id := "custom-id", title := "New Sub-Frame", description := some "",
               nodes := [], arrows := [],
               parentArrowId := some "arrow-scientific-to-economic", level := 1 } :=
  ⟨by decide, by decide⟩

/-- C9 amended: the creation operations spread the caller's fields after
the generated values, so a caller-supplied `id` overrides the generated
one in the stored record while the generated id is still returned.  For
`createNode` and `createArrow` the returned id then names no node or arrow
in the store (when fresh and distinct from the caller's id), and the
caller's id can duplicate an existing one.  For `createSubFrame`, however,
the frame is inserted into `frames` under the generated key (and the
arrow's `subFrameId` is set to that key), so the returned id does resolve
in `frames` — to a frame whose `id` field is the caller's id. -/
theorem C9_amended :
    (∀ (s : StoreState) (frameId : String) (p : NodePatch) (nid cid : String) (fr : Frame),
      p.id = some cid →
      lookupFrame s.frames frameId = some fr →
      (createNode frameId p nid s).2 = nid
      ∧ (∃ fr', lookupFrame (createNode frameId p nid s).1.frames frameId = some fr'
          ∧ ∃ n, fr'.nodes = fr.nodes ++ [n] ∧ n.id = cid)
      ∧ (nodeInStore s nid = false → ¬ cid = nid →
          nodeInStore (createNode frameId p nid s).1 nid = false))
    ∧ (∀ (s : StoreState) (frameId : String) (p : ArrowPatch) (aid cid : String) (fr : Frame),
      p.id = some cid →
      lookupFrame s.frames frameId = some fr →
      (createArrow frameId p aid s).2 = aid
      ∧ (∃ fr', lookupFrame (createArrow frameId p aid s).1.frames frameId = some fr'
          ∧ ∃ a, fr'.arrows = fr.arrows ++ [a] ∧ a.id = cid)
      ∧ (arrowInStore s aid = false → ¬ cid = aid →
          arrowInStore (createArrow frameId p aid s).1 aid = false))
    ∧ (∀ (s : StoreState) (arrowId : String) (p : FramePatch) (nid cid : String)
        (cf : Frame) (a : Arrow),
      p.id = some cid →
      lookupFrame s.frames s.currentFrameId = some cf →
      cf.arrows.find? (fun x => x.id == arrowId) = some a →
      hasFrame s.frames nid = false →
      (createSubFrame arrowId p nid s).2 = nid
      ∧ (∃ fr', lookupFrame (createSubFrame arrowId p nid s).1.frames nid = some fr'
          ∧ fr'.id = cid)) := by
  refine ⟨?_, ?_, ?_⟩
  · intro s frameId p nid cid fr hp hfr
    have hhas : hasFrame s.frames frameId = true := by rw [hasFrame, hfr]; rfl
    have heq := createNode_eq_of_found frameId p nid s hhas
    refine ⟨by rw [heq], ?_, ?_⟩
    · refine ⟨{ fr with nodes := fr.nodes ++
          [{ id := p.id.getD nid, type := p.type.getD "proposition",
             content := p.content.getD "",
             position := p.position.getD { x := 100, y := 100 },
             data := p.data }] }, ?_,
        { id := p.id.getD nid, type := p.type.getD "proposition",
          content := p.content.getD "",
          position := p.position.getD { x := 100, y := 100 },
          data := p.data }, rfl, ?_⟩
      · rw [heq]
        dsimp only
        rw [lookupFrame_updateFrame_self, hfr]
        rfl
      · show p.id.getD nid = cid
        rw [hp, Option.getD_some]
    · intro hno hne
      rw [heq]
      rw [nodeInStore, List.any_eq_false] at hno
      rw [nodeInStore, List.any_eq_false]
      intro e he
      dsimp only at he ⊢
      unfold updateFrame at he
      obtain ⟨e0, he0, heq0⟩ := List.mem_map.mp he
      have hne0 := hno e0 he0
      by_cases hx : (e0.1 == frameId) = true
      · rw [if_pos hx] at heq0
        rw [← heq0]
        intro hcontra
        rw [nodeExists_append_single, Bool.or_eq_true] at hcontra
        rcases hcontra with hc1 | hc2
        · exact hne0 hc1
        · refine hne ?_
          have hcc : p.id.getD nid = nid := by simpa using hc2
          rw [hp, Option.getD_some] at hcc
          exact hcc
      · rw [if_neg hx] at heq0
        rw [← heq0]
        exact hne0
  · intro s frameId p aid cid fr hp hfr
    have hhas : hasFrame s.frames frameId = true := by rw [hasFrame, hfr]; rfl
    have heq := createArrow_eq_of_found frameId p aid s hhas
    refine ⟨by rw [heq], ?_, ?_⟩
    · refine ⟨{ fr with arrows := fr.arrows ++
          [{ id := p.id.getD aid, source := p.source.getD "",
             target := p.target.getD "", type := p.type.getD "logical",
             hasSubFrame := p.hasSubFrame.getD false,
             subFrameId := p.subFrameId }] }, ?_,
        { id := p.id.getD aid, source := p.source.getD "",
          target := p.target.getD "", type := p.type.getD "logical",
          hasSubFrame := p.hasSubFrame.getD false,
          subFrameId := p.subFrameId }, rfl, ?_⟩
      · rw [heq]
        dsimp only
        rw [lookupFrame_updateFrame_self, hfr]
        rfl
      · show p.id.getD aid = cid
        rw [hp, Option.getD_some]
    · intro hno hne
      rw [heq]
      rw [arrowInStore, List.any_eq_false] at hno
      rw [arrowInStore, List.any_eq_false]
      intro e he
      dsimp only at he ⊢
      unfold updateFrame at he
      obtain ⟨e0, he0, heq0⟩ := List.mem_map.mp he
      have hne0 := hno e0 he0
      by_cases hx : (e0.1 == frameId) = true
      · rw [if_pos hx] at heq0
        rw [← heq0]
        intro hcontra
        rw [anyArrow_append_single, Bool.or_eq_true] at hcontra
        rcases hcontra with hc1 | hc2
        · exact hne0 hc1
        · refine hne ?_
          have hcc : p.id.getD aid = aid := by simpa using hc2
          rw [hp, Option.getD_some] at hcc
          exact hcc
      · rw [if_neg hx] at heq0
        rw [← heq0]
        exact hne0
  · intro s arrowId p nid cid cf a hp hc hfind hfresh
    obtain ⟨h1, h2, -, -⟩ := createSubFrame_components arrowId p nid s cf a hc hfind hfresh
    refine ⟨h1, ⟨_, h2, ?_⟩⟩
    show p.id.getD nid = cid
    rw [hp, Option.getD_some]

theorem C9_amended_witness :
    (createNode "main" { id := some "dup" } "gen-1" initialState).2 = "gen-1"
    ∧ nodeInStore (createNode "main" { id := some "dup" } "gen-1" initialState).1 "gen-1"
        = false := by
  have h := C9_amended.1 initialState "main" { id := some "dup" } "gen-1" "dup" mainFrame
    rfl (by decide)
  exact ⟨h.1, h.2.2 (by decide) (by decide)⟩

theorem C10_witness :
    hasFrame (applyOp .collapseArrow initialState).frames "main" = true
    ∧ hasFrame (run ([] ++ [Op.navigateBack]) initialState).frames "main" = true
    ∧ navResolves (run [] initialState) = true :=
  ⟨C10_frames_monotone.1 .collapseArrow initialState "main" (by decide),
   C10_frames_monotone.2.1 [] [Op.navigateBack] "main" (by decide),
   C10_frames_monotone.2.2 []⟩

end BigArrows
